import Mathlib

/-!
Verification of the `student_grader` question-checking engine
(`src/p4/student_grader/grading.py`, `code_execution.py`, `notebook_layout.py`)
against its natural-language specification.

The Python code is shallowly embedded as follows.

* A notebook cell's source text is opaque to the grader except for
  (a) a handful of string predicates the orchestrator evaluates on it
      (`startswith("Points possible")`, `'student_grader.check("qid")' in s`,
      `"grader.check" in s`),
  (b) the effect `exec(source, global_vars)` has on the binding environment
      (captured by an explicit effect function `run : Env → ExecOutcome`), and
  (c) the result of `ast.parse(source)` (captured as `Except String PyAst`).
  A `Snippet` bundles exactly these observations, so every grader-side
  decision made on a source string in the Python code is made on the same
  data here.
* Python dictionaries are association lists in insertion order
  (`Env := List (String × Val)`); dictionary iteration in the Python loops
  is iteration over the list.  Values are opaque to the grader — only
  decidable equality (`!=` in the comparison loop) is used — and are
  modelled as `Nat`.
* Fallible Python code is modelled with `Except PyExc`: an exception that
  escapes a modelled function is the `.error` case.
* The 2-second deadline of `code_execution.py` uses `threading.Timer`,
  which runs `timeout_handler` on a *separate* thread.  Per Python's
  threading semantics, the `RuntimeError` raised there terminates only the
  timer thread; it is never delivered to the main thread, so it cannot
  abort `exec` and cannot be caught by the `try/except` around `exec`.
  The model records whether the timer fired (`timerFired`), and —
  faithfully to those semantics — gives the firing no other effect.
-/

namespace StudentGrader

/-- Values held in the grading environment.  The grader only ever compares
them with `!=` (decidable equality) and copies them, so they are modelled
by an arbitrary type with decidable equality; we fix `Nat`. -/
abbrev Val := Nat

/-- `global_vars`: a Python dict from names to values, modelled as an
association list in insertion order. -/
abbrev Env := List (String × Val)

/-- The keys of an environment, in insertion order (Python dict iteration
order). -/
def envKeys (e : Env) : List String := e.map Prod.fst

/-- Python `k in d` on an environment. -/
def envHasKey (e : Env) (k : String) : Bool := (envKeys e).contains k

/-- Exceptions that can escape a modelled Python function. -/
inductive PyExc where
  /-- `KeyError(k)` from a failed dictionary lookup. -/
  | keyError (k : String)
  /-- `SyntaxError` from `ast.parse` / compiling source. -/
  | syntaxError (msg : String)
  /-- `AssertionError` from a failed `assert` statement. -/
  | assertionError (msg : String)
  deriving Repr, DecidableEq

/-! ### Python AST fragment (`ast` module) used by `_does_code_use` -/

mutual
/-- The fragment of the Python `ast` node language that
`_does_code_use`'s visitor distinguishes: `Call`, `Attribute`, `Name`,
`BinOp`, `BoolOp`, `UnaryOp`; every other node kind is `other` and is
represented just by its list of child nodes (the visitor only traverses
those).  Operator objects (`ast.Add()` …) are carried as their class
name string (`node.op.__class__.__name__`); they match none of the
`isinstance` tests in the visitor, so they need no node of their own. -/
inductive PyAst where
  | call (func : PyAst) (args : PyAstList)
  | attribute (value : PyAst) (attr : String)
  | name (id : String)
  | binop (op : String) (left : PyAst) (right : PyAst)
  | boolop (op : String) (operands : PyAstList)
  | unaryop (op : String) (operand : PyAst)
  | other (children : PyAstList)
  deriving Repr

/-- Lists of AST nodes (mutual with `PyAst` so that structural recursion
over the tree is available). -/
inductive PyAstList where
  | nil
  | cons (head : PyAst) (tail : PyAstList)
  deriving Repr
end

/-- Convert an ordinary list of nodes into a `PyAstList` (used only to
write concrete test trees compactly). -/
def pyList : List PyAst → PyAstList
  | [] => .nil
  | t :: ts => .cons t (pyList ts)

/-! ### `code_execution.py` -/

/-- What happened inside `exec(code, global_vars)` for one snippet on one
input environment: the environment when `exec` returned or raised, the
exception message if it raised an `Exception`, and the wall-clock duration
of the call in seconds. -/
structure ExecOutcome where
  env : Env
  raised : Option String
  duration : Nat
  deriving Repr, DecidableEq

/-- A cell source string, reduced to the observations the grader makes of
it (see the module docstring). -/
structure Snippet where
  /-- Effect of `exec(source, global_vars)` on a given environment. -/
  run : Env → ExecOutcome
  /-- `source.startswith("Points possible")`. -/
  startsPointsPossible : Bool
  /-- `f'student_grader.check("{q_id}")' in source`, as a function of `q_id`. -/
  mentionsCheckOf : String → Bool
  /-- `"grader.check" in source`. -/
  mentionsGraderCheck : Bool
  /-- `ast.parse(source)`: the tree, or the `SyntaxError` message. -/
  parsed : Except String PyAst

instance : Inhabited Snippet :=
  ⟨{ run := fun e => { env := e, raised := none, duration := 0 },
     startsPointsPossible := false,
     mentionsCheckOf := fun _ => false,
     mentionsGraderCheck := false,
     parsed := Except.error "" }⟩

/-- `CODE_MAX_EXECUTION_TIME = 2  # in seconds` (code_execution.py). -/
def CODE_MAX_EXECUTION_TIME : Nat := 2

/-- The message of the `RuntimeError` raised by `timeout_handler`
(code_execution.py). -/
def TIMEOUT_MESSAGE : String :=
  "Execution timed out in our grader system. Please modify your code so it runs faster."

/-- Warning text for a mutated pre-existing global (code_execution.py). -/
def gvarWarningMsg (name : String) : String :=
  "Global variable '" ++ name ++ "' was modified."

/-- Warning text for a newly created name shadowing a builtin
(code_execution.py). -/
def builtinWarningMsg (name : String) : String :=
  "Built-in function '" ++ name ++ "' was modified. You should never overwrite these."

/-- Model of `dir(builtins)`: the list of reserved/built-in identifiers of
the host Python.  The grader only tests membership in this list, so a
(representative) concrete list of built-in names suffices; the grader's
logic does not depend on which names exactly the host interpreter
provides. -/
def builtin_identifiers : List String :=
  ["abs", "all", "any", "bool", "dict", "float", "int", "len", "list",
   "map", "max", "min", "print", "range", "set", "str", "sum", "type", "zip"]

/-- The loop `for var in before_exec_globals: if ... != after[var]` of
`execute_code`:  walks the pre-execution snapshot in insertion order and
collects one "Global variable ... was modified." warning per binding whose
value changed.  Looking up a key that the executed code deleted from the
dict raises `KeyError`, exactly as `after_exec_globals[var]` does in
Python (the loop body indexes the post-state with a pre-state key). -/
def collectGlobalVarWarnings : Env → Env → Except PyExc (List String)
  | [], _ => .ok []
  | (k, v) :: rest, after =>
    match after.lookup k with
    | none => .error (.keyError k)
    | some v2 =>
      match collectGlobalVarWarnings rest after with
      | .error exc => .error exc
      | .ok ws => .ok ((if v ≠ v2 then [gvarWarningMsg k] else []) ++ ws)

/-- Result of a completed `execute_code` call: the final environment, the
full warning and error lists (the Python function mutates the lists it was
passed; here the extended lists are returned), and whether the deadline
timer fired during the call. -/
structure ExecReport where
  env : Env
  warnings : List String
  errors : List String
  timerFired : Bool
  deriving Repr, DecidableEq

/-- `execute_code(code, global_vars, warnings_list, errors_list,
error_prefix)` of code_execution.py.  (The `error_prefix` parameter is
named `ePre` here.)

* Snapshots the environment, starts the deadline timer, runs the code.
* The timer fires iff the execution takes longer than
  `CODE_MAX_EXECUTION_TIME`; faithfully to `threading.Timer`, the
  `RuntimeError` raised by `timeout_handler` dies with the timer thread
  and has no effect on the main thread, so the only trace of it in the
  model is the `timerFired` flag.  On the fast path the `finally:` block
  cancels the timer; either way nothing survives into a later call.
* An `Exception` raised by the executed code is caught and appended to the
  error list as `error_prefix + message`.
* The post-execution comparison loops then append the hygiene warnings;
  the first loop indexes the post-state with every pre-state key and
  therefore raises `KeyError` (propagated — it is outside the
  `try/except`) if the code deleted a pre-existing binding.
  If that happens the partially extended Python lists are unobservable to
  the rest of the program (the exception aborts the whole check), so the
  model simply returns the exception. -/
def execute_code (code : Snippet) (global_vars : Env)
    (warnings_list errors_list : List String) (ePre : String) :
    Except PyExc ExecReport :=
  let before_exec_globals := global_vars
  let outcome := code.run global_vars
  let timerFired : Bool := decide (CODE_MAX_EXECUTION_TIME < outcome.duration)
  let errs :=
    match outcome.raised with
    | some msg => errors_list ++ [ePre ++ msg]
    | none => errors_list
  let after_exec_globals := outcome.env
  match collectGlobalVarWarnings before_exec_globals after_exec_globals with
  | .error exc => .error exc
  | .ok gws =>
    let newNames := (envKeys after_exec_globals).filter
      (fun n => !(envKeys before_exec_globals).contains n)
    let bws := (newNames.filter (fun n => builtin_identifiers.contains n)).map
      builtinWarningMsg
    .ok { env := after_exec_globals,
          warnings := warnings_list ++ gws ++ bws,
          errors := errs,
          timerFired := timerFired }

/-! ### Concrete snippets used as inputs to C2/C3/C6 -/

/-- A snippet whose execution takes 5 seconds, changes nothing and raises
nothing (e.g. a busy loop that eventually finishes). -/
def slowSnippet : Snippet :=
  { run := fun e => { env := e, raised := none, duration := 5 },
    startsPointsPossible := false,
    mentionsCheckOf := fun _ => false,
    mentionsGraderCheck := false,
    parsed := Except.error "" }

/-- The snippet `del x`: removes the pre-existing binding `x`, raises
nothing, finishes instantly. -/
def delXSnippet : Snippet :=
  { run := fun e => { env := e.filter (fun p => p.1 ≠ "x"), raised := none, duration := 0 },
    startsPointsPossible := false,
    mentionsCheckOf := fun _ => false,
    mentionsGraderCheck := false,
    parsed := Except.error "" }

/-- The snippet `del x; y = 3`: deletes the pre-existing `x` and rebinds
the pre-existing `y` to an unequal value. -/
def delXSetYSnippet : Snippet :=
  { run := fun _ => { env := [("y", 3)], raised := none, duration := 0 },
    startsPointsPossible := false,
    mentionsCheckOf := fun _ => false,
    mentionsGraderCheck := false,
    parsed := Except.error "" }

/-- The report produced for `slowSnippet` on an empty environment. -/
def slowReport : ExecReport :=
  { env := [], warnings := [], errors := [], timerFired := true }

/-! ### `_does_code_use` (grading.py) -/

/-- `CustomNodeVisitor.get_full_name`: best-effort rendering of a callee.
Attribute chains are joined with dots; a `Name` yields its identifier;
any other node (e.g. a call, a subscript) yields `""`, so a chain rooted
in a complex expression renders to a *partial* string such as `".attr"`. -/
def get_full_name : PyAst → String
  | .attribute value attr => get_full_name value ++ "." ++ attr
  | .name id => id
  | _ => ""

/-- The spec's notion of a dotted-name chain: a callee built from `Name`
and `Attribute` nodes only, rendered as `module.func`.  Returns `none`
for every callee that is not such a chain.  (This definition follows the
specification's words, for comparison with the source's
`get_full_name`.) -/
def dottedName : PyAst → Option String
  | .name id => some id
  | .attribute value attr =>
    match dottedName value with
    | some s => some (s ++ "." ++ attr)
    | none => none
  | _ => none

/-- The node-level test of `CustomNodeVisitor.visit` for calls:
`isinstance(node, ast.Call)` and `get_full_name(node.func) == name`. -/
def callMatch (target : String) : PyAst → Bool
  | .call func _ => get_full_name func == target
  | _ => false

/-- The node-level test of `CustomNodeVisitor.visit` for operators:
`BinOp`/`BoolOp`/`UnaryOp` whose operator class name equals `name`. -/
def opMatch (target : String) : PyAst → Bool
  | .binop op _ _ => op == target
  | .boolop op _ => op == target
  | .unaryop op _ => op == target
  | _ => false

/-- Node-level test following the specification's words: a call whose
callee is a dotted-name chain exactly equal to `target`. -/
def specCallMatch (target : String) : PyAst → Bool
  | .call func _ => dottedName func == some target
  | _ => false

mutual
/-- The traversal of `CustomNodeVisitor`: `visit` tests the current node
(call with matching `get_full_name`, or operator with matching class
name) and then `generic_visit` recurses into every child node; `found`
ends up true iff some visited node passed a test. -/
def astFound (target : String) : PyAst → Bool
  | .call func args =>
    (get_full_name func == target) || astFound target func || astFoundList target args
  | .attribute value _ => astFound target value
  | .name _ => false
  | .binop op left right =>
    (op == target) || astFound target left || astFound target right
  | .boolop op operands => (op == target) || astFoundList target operands
  | .unaryop op operand => (op == target) || astFound target operand
  | .other children => astFoundList target children

/-- `generic_visit` over a list of child nodes. -/
def astFoundList (target : String) : PyAstList → Bool
  | .nil => false
  | .cons t ts => astFound target t || astFoundList target ts
end

mutual
/-- Does some node of the tree (the root included) satisfy `p`?  Used to
state tree-membership properties about the visitor. -/
def anyNode (p : PyAst → Bool) : PyAst → Bool
  | .call func args =>
    p (.call func args) || anyNode p func || anyNodeList p args
  | .attribute value attr => p (.attribute value attr) || anyNode p value
  | .name id => p (.name id)
  | .binop op left right =>
    p (.binop op left right) || anyNode p left || anyNode p right
  | .boolop op operands => p (.boolop op operands) || anyNodeList p operands
  | .unaryop op operand => p (.unaryop op operand) || anyNode p operand
  | .other children => p (.other children) || anyNodeList p children

/-- `anyNode` over a list of nodes. -/
def anyNodeList (p : PyAst → Bool) : PyAstList → Bool
  | .nil => false
  | .cons t ts => anyNode p t || anyNodeList p ts
end

/-- `_does_code_use(code_snippet, name)` (grading.py): parses the snippet
— a `SyntaxError` from `ast.parse` propagates, there is no `try` — and
runs the visitor over the tree. -/
def does_code_use (code_snippet : Snippet) (target : String) : Except PyExc Bool :=
  match code_snippet.parsed with
  | .error msg => .error (.syntaxError msg)
  | .ok tree => .ok (astFound target tree)

/-- Syntax tree of the module `x = abs(-5)`: an assignment node whose
value is a call to the name `abs`. -/
def tAbs : PyAst :=
  .other (pyList [.other (pyList [.call (.name "abs") (pyList [.other .nil])])])

/-- Syntax tree of the module `a().attr()`: the outer call's callee is
`a().attr`, an attribute rooted in a call — not a dotted-name chain. -/
def tDotAttr : PyAst :=
  .other (pyList
    [.call (.attribute (.call (.name "a") (pyList [])) "attr") (pyList [])])

/-- A snippet whose source parses to `tDotAttr` (i.e. `a().attr()`). -/
def snippetDotAttr : Snippet :=
  { run := fun e => { env := e, raised := none, duration := 0 },
    startsPointsPossible := false,
    mentionsCheckOf := fun _ => false,
    mentionsGraderCheck := false,
    parsed := Except.ok tDotAttr }

/-! ### Warning bookkeeping of `execute_code` (claim C6) -/

instance : Inhabited ExecReport :=
  ⟨{ env := [], warnings := [], errors := [], timerFired := false }⟩

/-- The snippet `y = 7; len = 9` run against `{"x": 1, "y": 2}`: rebinds
the pre-existing `y` to an unequal value and introduces the new name
`len`, which shadows a built-in. -/
def modYLenSnippet : Snippet :=
  { run := fun _ =>
      { env := [("x", 1), ("y", 7), ("len", 9)], raised := none, duration := 0 },
    startsPointsPossible := false,
    mentionsCheckOf := fun _ => false,
    mentionsGraderCheck := false,
    parsed := Except.error "" }

/-- The report of `execute_code` on `modYLenSnippet` (total extraction
used by the witness below). -/
def modYLenReport : ExecReport :=
  match execute_code modYLenSnippet [("x", 1), ("y", 2)] [] [] "Error: " with
  | .ok r => r
  | .error _ => default

/-! ### Message constants (`grader_messages.py`)

The module `student_grader/grader_messages.py` is imported by
`grading.py` but is not part of the available sources; its constants are
modelled from the specification.  Only `ASSERTION_FAILED_PRE` has its
text fixed by the spec ("Test case failed: ", §4.3 and the docstring of
`execute_code`); for the rest only the existence of a fixed message /
contextual prefix matters to the claims, so representative texts are
used. -/

/-- Modelled from the spec: `ASSERTION_FAILED_PREFIX` of the missing
`grader_messages.py` — the distinct error-message prefix for assertion
failures, given verbatim by the spec as "Test case failed: ". -/
def ASSERTION_FAILED_PRE : String := "Test case failed: "

/-- Modelled from the spec: `CUR_QUESTION_ERROR_PREFIX` of the missing
`grader_messages.py` — the contextual prefix for faults raised by the
target question's own code. -/
def CUR_QUESTION_ERROR_PRE : String := "Error in this question: "

/-- Modelled from the spec: `ABOVE_QUESTION_ERROR_PREFIX` of the missing
`grader_messages.py` — the contextual prefix for faults raised by cells
above the target question. -/
def ABOVE_QUESTION_ERROR_PRE : String := "Error in a cell above: "

/-- Modelled from the spec: `MISSED_REQ_FUNC_FORMAT` of the missing
`grader_messages.py` — the missing-function error identifying the
required name. -/
def missedFuncMsg (name : String) : String :=
  "Your code must use: " ++ name

/-- Modelled from the spec: `MISSED_REQ_VAR_FORMAT` of the missing
`grader_messages.py` — the missing-variable error identifying the
required name. -/
def missedVarMsg (name : String) : String :=
  "Your code must define the variable: " ++ name

/-- Modelled from the spec: `ISSUES_ABOVE_MSG` of the missing
`grader_messages.py` — the blocking message printed when prior cells had
issues. -/
def ISSUES_ABOVE_MSG : String :=
  "Please fix the issues in the cells above before running this check."

/-- Modelled from the spec: `SUCCESS_MSG` of the missing
`grader_messages.py` — the single success line printed on full pass. -/
def SUCCESS_MSG : String := "All checks passed!"

/-- Modelled from the spec: `CHECK_START_FORMAT` of the missing
`grader_messages.py` — the start banner naming the question. -/
def CHECK_START_MSG (q_id : String) : String :=
  "Running checks for question " ++ q_id

/-! ### `_check_student_code_against_requirements` (grading.py) -/

/-- Result of a completed requirement validation: final environment and
warning/error lists, plus — recorded separately for observability — the
missing-function and missing-variable error segments the two loops
appended (they are also part of `errors`). -/
structure ValidationReport where
  env : Env
  warnings : List String
  errors : List String
  funcErrors : List String
  varErrors : List String
  deriving Repr, DecidableEq

instance : Inhabited ValidationReport :=
  ⟨{ env := [], warnings := [], errors := [], funcErrors := [], varErrors := [] }⟩

/-- The loop `for function_name in required_functions: ...` of
`_check_student_code_against_requirements`: one missing-function error
per required name the code does not use.  `_does_code_use` re-parses the
snippet on every iteration, so an unparseable snippet raises
`SyntaxError` at the first name (propagated). -/
def collectFuncErrors (student_code : Snippet) : List String → Except PyExc (List String)
  | [] => .ok []
  | f :: rest =>
    match does_code_use student_code f with
    | .error exc => .error exc
    | .ok b =>
      match collectFuncErrors student_code rest with
      | .error exc => .error exc
      | .ok errs => .ok ((if b then [] else [missedFuncMsg f]) ++ errs)

/-- The loop `for required_var in required_vars: ...`: one
missing-variable error per required name absent from the accumulated
environment's keys. -/
def collectVarErrors : List String → Env → List String
  | [], _ => []
  | v :: rest, global_vars =>
    (if envHasKey global_vars v then [] else [missedVarMsg v]) ++
      collectVarErrors rest global_vars

/-- `_check_student_code_against_requirements(student_code,
required_functions, required_vars, assertions, current_question_warnings,
current_question_errors, global_vars)` (grading.py): first the
required-function loop, then the required-variable loop, then the
assertion snippet executed via `execute_code` with the assertion prefix
against the same environment and lists. -/
def check_student_code_against_requirements (student_code : Snippet)
    (required_functions required_vars : List String) (assertions : Snippet)
    (current_question_warnings current_question_errors : List String)
    (global_vars : Env) : Except PyExc ValidationReport :=
  match collectFuncErrors student_code required_functions with
  | .error exc => .error exc
  | .ok funcErrs =>
    let varErrs := collectVarErrors required_vars global_vars
    match execute_code assertions global_vars current_question_warnings
        (current_question_errors ++ funcErrs ++ varErrs) ASSERTION_FAILED_PRE with
    | .error exc => .error exc
    | .ok rep =>
      .ok { env := rep.env, warnings := rep.warnings, errors := rep.errors,
            funcErrors := funcErrs, varErrors := varErrs }

/-! ### `check` (grading.py) and the notebook layout -/

/-- `cell.cell_type` values distinguished by the orchestrator. -/
inductive CellType where
  | code
  | markdown
  | other
  deriving Repr, DecidableEq, BEq

/-- A notebook cell: its type and its source text (as a `Snippet`). -/
structure Cell where
  cell_type : CellType
  source : Snippet

instance : Inhabited Cell := ⟨{ cell_type := CellType.code, source := default }⟩

/-- `CODE_CELL_OFFSET_STUDENT = 1` (notebook_layout.py): the question's
code cell sits one below its "Points possible" marker cell. -/
def CODE_CELL_OFFSET_STUDENT : Nat := 1

/-- `CHECK_CELL_OFFSET_STUDENT = 2` (notebook_layout.py): the
`student_grader.check` cell sits two below the marker cell. -/
def CHECK_CELL_OFFSET_STUDENT : Nat := 2

/-- One entry of the assignment metadata: required function/operator
names, required variable names, and the assertion snippet. -/
structure QuestionMeta where
  required_funcs : List String
  required_vars : List String
  assertions : Snippet

/-- Mutable state of `check`'s scanning loop: the accumulated
environment, the warnings/errors from previous cells, the lines printed
so far, and — recorded for observability — the indices of the cells whose
source has been executed, in execution order. -/
structure ScanState where
  env : Env
  prevWarnings : List String
  prevErrors : List String
  printed : List String
  executed : List Nat

/-- What happened in the matched question block (recorded for
observability alongside `check`'s Python-visible outputs): the marker
cell's index, whether the interactive prior-issue gate stopped the check,
whether the question's own code was executed / the requirement validator
ran, the final per-question warning and error lists, the environment
after the question's code executed, the environment the validator was
invoked on (if it ran) and its report. -/
structure TargetInfo where
  markerIndex : Nat
  blockedByPrior : Bool
  ranQuestionCode : Bool
  ranValidation : Bool
  qWarnings : List String
  qErrors : List String
  envAfterQuestion : Env
  envAtValidation : Option Env
  validation : Option ValidationReport

/-- Result of a completed `check` call: the Python return value
(`Optional[bool]`), the printed lines, the final environment, the indices
of executed cells, and the matched question block's record (if one was
found). -/
structure CheckResult where
  ret : Option Bool
  printed : List String
  env : Env
  executed : List Nat
  target : Option TargetInfo

instance : Inhabited CheckResult :=
  ⟨{ ret := none, printed := [], env := [], executed := [], target := none }⟩

/-- `formatted_print(messages, section_title)` (io_helpers.py): a section
title preceded by a blank line, then the messages as bullets. -/
def formatted_print (messages : List String) (section_title : String) : List String :=
  ("\n" ++ section_title) :: messages.map (fun m => "  - " ++ m)

/-- `_print_feedback_student(warnings_arr, errors_arr)` (grading.py). -/
def printFeedbackStudent (warnings_arr errors_arr : List String) : List String :=
  (if warnings_arr.isEmpty then [] else formatted_print warnings_arr "Warnings:") ++
    (if errors_arr.isEmpty then [] else formatted_print errors_arr "Errors:")

/-- The body of `check`'s loop for the matched question block
(`found_current_question_block` branch, grading.py lines 118-184):
interactive prior-issue gate, execution of the question's own code at
marker-offset+1 with fresh lists, interactive early stop on execution
errors, requirement validation, then feedback or success message, and in
every case the loop `break`s afterwards. -/
def handleTarget (cells : List Cell) (i : Nat) (meta : QuestionMeta) (auto : Bool)
    (st : ScanState) : Except PyExc CheckResult :=
  let student_code := (cells.getD (i + CODE_CELL_OFFSET_STUDENT) default).source
  if (!st.prevWarnings.isEmpty || !st.prevErrors.isEmpty) && !auto then
    .ok { ret := none,
          printed := st.printed ++ printFeedbackStudent st.prevWarnings st.prevErrors
            ++ [ISSUES_ABOVE_MSG],
          env := st.env,
          executed := st.executed,
          target := some { markerIndex := i, blockedByPrior := true,
                           ranQuestionCode := false, ranValidation := false,
                           qWarnings := [], qErrors := [],
                           envAfterQuestion := st.env, envAtValidation := none,
                           validation := none } }
  else
    match execute_code student_code st.env [] [] CUR_QUESTION_ERROR_PRE with
    | .error exc => .error exc
    | .ok rep =>
      if !rep.errors.isEmpty && !auto then
        .ok { ret := none,
              printed := st.printed ++ printFeedbackStudent rep.warnings rep.errors,
              env := rep.env,
              executed := st.executed ++ [i + CODE_CELL_OFFSET_STUDENT],
              target := some { markerIndex := i, blockedByPrior := false,
                               ranQuestionCode := true, ranValidation := false,
                               qWarnings := rep.warnings, qErrors := rep.errors,
                               envAfterQuestion := rep.env, envAtValidation := none,
                               validation := none } }
      else
        match check_student_code_against_requirements student_code
            meta.required_funcs meta.required_vars meta.assertions
            rep.warnings rep.errors rep.env with
        | .error exc => .error exc
        | .ok vr =>
          let pass := vr.warnings.isEmpty && vr.errors.isEmpty
          .ok { ret := if auto then some pass else none,
                printed := st.printed ++
                  (if pass then [SUCCESS_MSG]
                   else if auto then []
                   else printFeedbackStudent vr.warnings vr.errors),
                env := vr.env,
                executed := st.executed ++ [i + CODE_CELL_OFFSET_STUDENT],
                target := some { markerIndex := i, blockedByPrior := false,
                                 ranQuestionCode := true, ranValidation := true,
                                 qWarnings := vr.warnings, qErrors := vr.errors,
                                 envAfterQuestion := rep.env,
                                 envAtValidation := some rep.env,
                                 validation := some vr } }

/-- `check`'s loop over `enumerate(notebook.cells[:-CHECK_CELL_OFFSET_STUDENT])`
(grading.py lines 108-198), processed index by index: a cell starting the
"Points possible" marker whose cell two below mentions
`student_grader.check("q_id")` is the matched block (handled and then the
loop breaks); otherwise a code cell not containing "grader.check" is
executed with suppressed output, accumulating into the shared environment
and the previous-cells warning/error lists; all other cells are
skipped. -/
def checkFrom (cells : List Cell) (q_id : String) (meta : QuestionMeta)
    (auto : Bool) : List Nat → ScanState → Except PyExc CheckResult
  | [], st =>
    .ok { ret := if auto then some false else none,
          printed := st.printed, env := st.env, executed := st.executed,
          target := none }
  | i :: rest, st =>
    let cell := cells.getD i default
    let found_question_block := cell.source.startsPointsPossible
    let found_current_question_block := found_question_block &&
      ((cells.getD (i + CHECK_CELL_OFFSET_STUDENT) default).source.mentionsCheckOf q_id)
    if found_current_question_block then
      handleTarget cells i meta auto st
    else if cell.cell_type == CellType.code && !cell.source.mentionsGraderCheck then
      match execute_code cell.source st.env st.prevWarnings st.prevErrors
          ABOVE_QUESTION_ERROR_PRE with
      | .error exc => .error exc
      | .ok rep =>
        checkFrom cells q_id meta auto rest
          { env := rep.env, prevWarnings := rep.warnings, prevErrors := rep.errors,
            printed := st.printed, executed := st.executed ++ [i] }
    else
      checkFrom cells q_id meta auto rest st

/-- `check(q_id, is_running_from_autograder)` (grading.py): prints the
start banner, loads notebook and metadata (taken here as arguments — they
are produced by out-of-scope loader collaborators), asserts that `q_id`
is present in the metadata (an `AssertionError` escapes otherwise), runs
the scanning loop over all cells except the fixed trailing window of
`CHECK_CELL_OFFSET_STUDENT` cells, and finally returns `did_check_pass`
in automated mode and nothing in interactive mode. -/
def check (cells : List Cell) (assignment_metadata : String → Option QuestionMeta)
    (q_id : String) (is_running_from_autograder : Bool) : Except PyExc CheckResult :=
  match assignment_metadata q_id with
  | none => .error (.assertionError q_id)
  | some meta =>
    checkFrom cells q_id meta is_running_from_autograder
      (List.range (cells.length - CHECK_CELL_OFFSET_STUDENT))
      { env := [], prevWarnings := [], prevErrors := [],
        printed := [CHECK_START_MSG q_id], executed := [] }

/-- `checkPassOf t` is the boolean `check` returns in automated mode as a
function of the matched block's record: true iff a block was matched and
its final per-question warning and error lists are both empty. -/
def checkPassOf : Option TargetInfo → Bool
  | none => false
  | some ti => ti.qWarnings.isEmpty && ti.qErrors.isEmpty

/-! ### Concrete notebooks and extraction definitions for the
claim-level theorems and witnesses -/

instance : Inhabited TargetInfo :=
  ⟨{ markerIndex := 0, blockedByPrior := false, ranQuestionCode := false,
     ranValidation := false, qWarnings := [], qErrors := [],
     envAfterQuestion := [], envAtValidation := none, validation := none }⟩

/-- A snippet that executes without effect and parses to an empty module
(e.g. a passing assertion such as `assert x == 5` — no binding change, no
fault). -/
def noopSnippet : Snippet :=
  { run := fun e => { env := e, raised := none, duration := 0 },
    startsPointsPossible := false,
    mentionsCheckOf := fun _ => false,
    mentionsGraderCheck := false,
    parsed := Except.ok (.other .nil) }

/-- The source `x = abs(-5)`: binds `x` to 5, uses the call `abs`. -/
def snippetAbs : Snippet :=
  { run := fun e => { env := e ++ [("x", 5)], raised := none, duration := 0 },
    startsPointsPossible := false,
    mentionsCheckOf := fun _ => false,
    mentionsGraderCheck := false,
    parsed := Except.ok tAbs }

/-- The source of a cell with a syntax error: `exec` raises
`SyntaxError("invalid syntax")` (caught by `execute_code`), and
`ast.parse` fails with the same message. -/
def snippetSyntaxErr : Snippet :=
  { run := fun e => { env := e, raised := some "invalid syntax", duration := 0 },
    startsPointsPossible := false,
    mentionsCheckOf := fun _ => false,
    mentionsGraderCheck := false,
    parsed := Except.error "invalid syntax" }

/-- The source of a cell whose code parses fine but raises
`RuntimeError("boom")` when executed. -/
def snippetRuntimeErr : Snippet :=
  { run := fun e => { env := e, raised := some "boom", duration := 0 },
    startsPointsPossible := false,
    mentionsCheckOf := fun _ => false,
    mentionsGraderCheck := false,
    parsed := Except.ok (.other .nil) }

/-- A "Points possible" marker cell (markdown). -/
def markerCell : Cell :=
  { cell_type := CellType.markdown,
    source := { run := fun e => { env := e, raised := none, duration := 0 },
                startsPointsPossible := true,
                mentionsCheckOf := fun _ => false,
                mentionsGraderCheck := false,
                parsed := Except.ok (.other .nil) } }

/-- The invocation cell containing `student_grader.check("q1")`. -/
def checkCellQ1 : Cell :=
  { cell_type := CellType.code,
    source := { run := fun e => { env := e, raised := none, duration := 0 },
                startsPointsPossible := false,
                mentionsCheckOf := fun q => q == "q1",
                mentionsGraderCheck := true,
                parsed := Except.ok (.other .nil) } }

/-- A three-cell notebook whose question `q1` passes: marker cell, code
cell `x = abs(-5)`, check cell. -/
def cellsGood : List Cell :=
  [markerCell, { cell_type := CellType.code, source := snippetAbs }, checkCellQ1]

/-- Metadata for `cellsGood`'s question: requires the call `abs`, the
variable `x`, and a passing assertion. -/
def metaGood : QuestionMeta :=
  { required_funcs := ["abs"], required_vars := ["x"], assertions := noopSnippet }

/-- The metadata mapping of the passing notebook. -/
def mdGood : String → Option QuestionMeta :=
  fun q => if q == "q1" then some metaGood else none

/-- A three-cell notebook whose question cell has a syntax error. -/
def cellsBad : List Cell :=
  [markerCell, { cell_type := CellType.code, source := snippetSyntaxErr }, checkCellQ1]

/-- Metadata for `cellsBad`'s question: one required function, so the
requirement validator calls `_does_code_use` on the unparseable code. -/
def metaBad : QuestionMeta :=
  { required_funcs := ["f"], required_vars := [], assertions := noopSnippet }

/-- The metadata mapping of the syntax-error notebook. -/
def mdBad : String → Option QuestionMeta :=
  fun q => if q == "q1" then some metaBad else none

/-- A three-cell notebook whose question code raises a runtime error. -/
def cellsErr : List Cell :=
  [markerCell, { cell_type := CellType.code, source := snippetRuntimeErr }, checkCellQ1]

/-- Metadata for `cellsErr`'s question: no requirements, passing
assertion. -/
def metaErr : QuestionMeta :=
  { required_funcs := [], required_vars := [], assertions := noopSnippet }

/-- A scan state with empty accumulators. -/
def stEmpty : ScanState :=
  { env := [], prevWarnings := [], prevErrors := [], printed := [], executed := [] }

/-- A scan state carrying one warning from previous cells. -/
def stWarn : ScanState :=
  { env := [], prevWarnings := ["Global variable 'z' was modified."],
    prevErrors := [], printed := [], executed := [] }

/-- The result of the automated check on the passing notebook. -/
def resGoodAuto : CheckResult :=
  match check cellsGood mdGood "q1" true with
  | .ok r => r
  | .error _ => default

/-- The result of the interactive check on the passing notebook. -/
def resGoodInter : CheckResult :=
  match check cellsGood mdGood "q1" false with
  | .ok r => r
  | .error _ => default

/-- The matched-block record of the automated check on the passing
notebook. -/
def tiGoodAuto : TargetInfo :=
  match resGoodAuto.target with
  | some ti => ti
  | none => default

/-- The result of handling the passing notebook's target block in
automated mode from a state with a prior-cell warning. -/
def rTargetAutoWarn : CheckResult :=
  match handleTarget cellsGood 0 metaGood true stWarn with
  | .ok r => r
  | .error _ => default

/-- Like `rTargetAutoWarn` but in interactive mode. -/
def rTargetInterWarn : CheckResult :=
  match handleTarget cellsGood 0 metaGood false stWarn with
  | .ok r => r
  | .error _ => default

/-- The result of handling the runtime-error notebook's target block in
automated mode. -/
def rTargetErrAuto : CheckResult :=
  match handleTarget cellsErr 0 metaErr true stEmpty with
  | .ok r => r
  | .error _ => default

/-- The execution report of the runtime-error notebook's question cell. -/
def repErrAuto : ExecReport :=
  match execute_code (cellsErr.getD (0 + CODE_CELL_OFFSET_STUDENT) default).source
      stEmpty.env [] [] CUR_QUESTION_ERROR_PRE with
  | .ok r => r
  | .error _ => default

/-- The result of the interactive check on the syntax-error notebook
(which, unlike the automated one, completes normally). -/
def resBadInter : CheckResult :=
  match check cellsBad mdBad "q1" false with
  | .ok r => r
  | .error _ => default

/-- The validation report of a concrete validator call: code
`x = abs(-5)`, required calls `abs` (used) and `len` (not used), required
variables `x` (defined) and `zz` (not defined), passing assertion. -/
def vrSample : ValidationReport :=
  match check_student_code_against_requirements snippetAbs ["abs", "len"]
      ["x", "zz"] noopSnippet [] [] [("x", 5)] with
  | .ok v => v
  | .error _ => default

/-- The matched-block record of `rTargetAutoWarn`. -/
def tiAutoWarn : TargetInfo :=
  match rTargetAutoWarn.target with
  | some ti => ti
  | none => default

/-- The matched-block record of `rTargetInterWarn`. -/
def tiInterWarn : TargetInfo :=
  match rTargetInterWarn.target with
  | some ti => ti
  | none => default

/-- C2: For every code snippet whose execution exceeds the fixed 2-second
deadline constant, the run is aborted and exactly one timeout error
(message "Execution timed out ... run faster" carrying the error prefix)
is appended to `errors_out`; the timer is cancelled on every exit path.

The code does not do this: `threading.Timer` calls `timeout_handler` on a
separate thread, and the `RuntimeError` it raises terminates only that
thread — it neither aborts the `exec` on the main thread nor reaches the
`try/except` there, so nothing is ever appended to `errors_out`.  This
statement evaluates the model at the failing input: a 5-second snippet.
The deadline timer fires (`timerFired = true`), yet the call completes
normally with an *empty* error list, and in particular the timeout
message never appears in it. -/
theorem c2_timeout_error_never_recorded :
    execute_code slowSnippet [] [] [] "Error: " = .ok slowReport ∧
    slowReport.errors = [] ∧
    ("Error: " ++ TIMEOUT_MESSAGE) ∉ slowReport.errors ∧
    slowReport.timerFired = true := by
  refine ⟨rfl, rfl, ?_, rfl⟩
  simp [slowReport]

/-- C3: `execute_code` never propagates an exception to its caller — in
particular (so the claim says) for snippets that delete pre-existing
bindings from the environment.

The code violates this: after the `try/except`, the comparison loop
executes `after_exec_globals[var]` for every key `var` of the
pre-execution snapshot; if the snippet deleted `var`, that lookup raises
`KeyError`, which is outside the `try` and propagates to the caller.
This theorem evaluates the model at the failing input `del x` with
`global_vars = {"x": 1}`: the call raises `KeyError('x')` instead of
returning normally. -/
theorem c3_execute_code_raises_on_deletion :
    execute_code delXSnippet [("x", 1)] [] [] "Error: " =
      .error (.keyError "x") ∧
    (execute_code delXSnippet [("x", 1)] [] [] "Error: ").toOption = none := by
  exact ⟨rfl, rfl⟩

mutual
/-- The visitor finds exactly the trees containing a node that passes one
of its two node-level tests. -/
theorem astFound_eq_anyNode (target : String) :
    (t : PyAst) →
      astFound target t = anyNode (fun n => callMatch target n || opMatch target n) t
  | .call func args => by
    rw [astFound, anyNode, astFound_eq_anyNode target func,
      astFoundList_eq_anyNodeList target args]
    simp [callMatch, opMatch]
  | .attribute value attr => by
    rw [astFound, anyNode, astFound_eq_anyNode target value]
    simp [callMatch, opMatch]
  | .name id => by
    rw [astFound, anyNode]
    simp [callMatch, opMatch]
  | .binop op left right => by
    rw [astFound, anyNode, astFound_eq_anyNode target left,
      astFound_eq_anyNode target right]
    simp [callMatch, opMatch, Bool.or_assoc]
  | .boolop op operands => by
    rw [astFound, anyNode, astFoundList_eq_anyNodeList target operands]
    simp [callMatch, opMatch]
  | .unaryop op operand => by
    rw [astFound, anyNode, astFound_eq_anyNode target operand]
    simp [callMatch, opMatch]
  | .other children => by
    rw [astFound, anyNode, astFoundList_eq_anyNodeList target children]
    simp [callMatch, opMatch]

theorem astFoundList_eq_anyNodeList (target : String) :
    (ts : PyAstList) →
      astFoundList target ts =
        anyNodeList (fun n => callMatch target n || opMatch target n) ts
  | .nil => rfl
  | .cons t ts => by
    rw [astFoundList, anyNodeList, astFound_eq_anyNode target t,
      astFoundList_eq_anyNodeList target ts]
end

mutual
/-- Monotonicity of `anyNode` in the node predicate. -/
theorem anyNode_mono {p q : PyAst → Bool} (hpq : ∀ n, p n = true → q n = true) :
    (t : PyAst) → anyNode p t = true → anyNode q t = true
  | .call func args => by
    rw [anyNode, anyNode]
    intro h
    rcases Bool.or_eq_true_iff.mp h with h1 | h2
    · rcases Bool.or_eq_true_iff.mp h1 with h3 | h4
      · simp [hpq _ h3]
      · simp [anyNode_mono hpq func h4]
    · simp [anyNodeList_mono hpq args h2]
  | .attribute value attr => by
    rw [anyNode, anyNode]
    intro h
    rcases Bool.or_eq_true_iff.mp h with h1 | h2
    · simp [hpq _ h1]
    · simp [anyNode_mono hpq value h2]
  | .name id => by
    rw [anyNode, anyNode]
    exact fun h => hpq _ h
  | .binop op left right => by
    rw [anyNode, anyNode]
    intro h
    rcases Bool.or_eq_true_iff.mp h with h1 | h2
    · rcases Bool.or_eq_true_iff.mp h1 with h3 | h4
      · simp [hpq _ h3]
      · simp [anyNode_mono hpq left h4]
    · simp [anyNode_mono hpq right h2]
  | .boolop op operands => by
    rw [anyNode, anyNode]
    intro h
    rcases Bool.or_eq_true_iff.mp h with h1 | h2
    · simp [hpq _ h1]
    · simp [anyNodeList_mono hpq operands h2]
  | .unaryop op operand => by
    rw [anyNode, anyNode]
    intro h
    rcases Bool.or_eq_true_iff.mp h with h1 | h2
    · simp [hpq _ h1]
    · simp [anyNode_mono hpq operand h2]
  | .other children => by
    rw [anyNode, anyNode]
    intro h
    rcases Bool.or_eq_true_iff.mp h with h1 | h2
    · simp [hpq _ h1]
    · simp [anyNodeList_mono hpq children h2]

theorem anyNodeList_mono {p q : PyAst → Bool} (hpq : ∀ n, p n = true → q n = true) :
    (ts : PyAstList) → anyNodeList p ts = true → anyNodeList q ts = true
  | .nil => fun h => h
  | .cons t ts => by
    rw [anyNodeList, anyNodeList]
    intro h
    rcases Bool.or_eq_true_iff.mp h with h1 | h2
    · simp [anyNode_mono hpq t h1]
    · simp [anyNodeList_mono hpq ts h2]
end

/-- On a pure dotted-name chain, the source's best-effort rendering agrees
with the chain's name. -/
theorem get_full_name_of_dottedName :
    (t : PyAst) → ∀ s, dottedName t = some s → get_full_name t = s
  | .name id => by intro s h; simp [dottedName] at h; simp [get_full_name, h]
  | .attribute value attr => by
    intro s h
    rw [dottedName] at h
    cases hv : dottedName value with
    | none => rw [hv] at h; exact absurd h (by simp)
    | some s0 =>
      rw [hv] at h
      simp only [Option.some.injEq] at h
      rw [get_full_name, get_full_name_of_dottedName value s0 hv, h]
  | .call f args => by intro s h; exact absurd h (by simp [dottedName])
  | .binop op l r => by intro s h; exact absurd h (by simp [dottedName])
  | .boolop op xs => by intro s h; exact absurd h (by simp [dottedName])
  | .unaryop op x => by intro s h; exact absurd h (by simp [dottedName])
  | .other cs => by intro s h; exact absurd h (by simp [dottedName])

/-- A node passing the specification's call test passes the source's. -/
theorem specCallMatch_imp_callMatch (target : String) :
    (n : PyAst) → specCallMatch target n = true → callMatch target n = true
  | .call func args => by
    rw [specCallMatch, callMatch]
    intro h
    have hd : dottedName func = some target := eq_of_beq h
    rw [get_full_name_of_dottedName func target hd]
    simp
  | .attribute v a => by simp [specCallMatch, callMatch]
  | .name i => by simp [specCallMatch, callMatch]
  | .binop o l r => by simp [specCallMatch, callMatch]
  | .boolop o xs => by simp [specCallMatch, callMatch]
  | .unaryop o x => by simp [specCallMatch, callMatch]
  | .other cs => by simp [specCallMatch, callMatch]

/-- C5, counterexample.  The claim says: if a snippet contains no call
whose callee is a dotted-name chain exactly equal to `name` and no
operator named `name`, then `uses(c, name)` returns false ("partial or
alias matches of dotted names do not count").  The snippet `a().attr()`
with `name = ".attr"` refutes this: no node of its tree passes the
specification's tests (the callee `a().attr` is rooted in a call, hence
not a dotted-name chain, and there is no operator), yet `get_full_name`
best-effort-renders that callee to the partial string `".attr"` and the
visitor matches it, so `_does_code_use` returns true. -/
theorem c5_partial_name_counterexample :
    anyNode (fun n => specCallMatch ".attr" n || opMatch ".attr" n) tDotAttr = false ∧
    does_code_use snippetDotAttr ".attr" = .ok true ∧
    astFound ".attr" tDotAttr = true := by
  refine ⟨by decide, rfl, by decide⟩

/-- C5, amended.  For every syntactically valid snippet: (i) if the tree
contains, at any depth, a call whose callee is a dotted-name chain equal
to `target`, or an operator whose kind name equals `target`, then
`_does_code_use` finds it; (ii) if the tree contains no node matching the
*source's* tests — no call whose callee *best-effort-renders*
(`get_full_name`, partial strings included) to `target` and no operator
named `target` — then `_does_code_use` returns false.  (The amendment
replaces the claim's "no call whose callee is a dotted-name chain equal
to name" in the negative direction by "no call whose callee renders to
name", which the counterexample above forces.)  (iii) On every
syntactically invalid snippet, the `SyntaxError` from `ast.parse` is
propagated, not swallowed. -/
theorem c5_amended_does_code_use_correct :
    (∀ (t : PyAst) (target : String),
        anyNode (fun n => specCallMatch target n || opMatch target n) t = true →
          astFound target t = true) ∧
    (∀ (t : PyAst) (target : String),
        anyNode (fun n => callMatch target n || opMatch target n) t = false →
          astFound target t = false) ∧
    (∀ (sc : Snippet) (target msg : String),
        sc.parsed = .error msg →
          does_code_use sc target = .error (.syntaxError msg)) := by
  refine ⟨?_, ?_, ?_⟩
  · intro t target h
    rw [astFound_eq_anyNode]
    refine anyNode_mono ?_ t h
    intro n hn
    rcases Bool.or_eq_true_iff.mp hn with h1 | h2
    · simp [specCallMatch_imp_callMatch target n h1]
    · simp [h2]
  · intro t target h
    rw [astFound_eq_anyNode]
    exact h
  · intro sc target msg hp
    rw [does_code_use, hp]

/-- Witness for C5 (amended): concrete instances of all three parts.
`x = abs(-5)` uses the call `abs` (found), does not use `len` (not
found), and a snippet with a syntax error propagates it. -/
theorem c5_amended_witness :
    astFound "abs" tAbs = true ∧ astFound "len" tAbs = false ∧
      does_code_use slowSnippet "len" = .error (.syntaxError "") :=
  ⟨c5_amended_does_code_use_correct.1 tAbs "abs" (by decide),
   c5_amended_does_code_use_correct.2.1 tAbs "len" (by decide),
   c5_amended_does_code_use_correct.2.2 slowSnippet "len" "" rfl⟩

/-- Two distinct names give two distinct "Global variable ..." warnings. -/
theorem gvarWarningMsg_injective : Function.Injective gvarWarningMsg := by
  intro a b h
  have hd := congrArg String.data h
  simp only [gvarWarningMsg, String.data_append] at hd
  exact String.ext (List.append_cancel_left (List.append_cancel_right hd))

/-- Two distinct names give two distinct "Built-in function ..." warnings. -/
theorem builtinWarningMsg_injective : Function.Injective builtinWarningMsg := by
  intro a b h
  have hd := congrArg String.data h
  simp only [builtinWarningMsg, String.data_append] at hd
  exact String.ext (List.append_cancel_left (List.append_cancel_right hd))

/-- A "Global variable ..." warning is never a "Built-in function ..."
warning (they start with different characters). -/
theorem gvarWarningMsg_ne_builtinWarningMsg (a b : String) :
    gvarWarningMsg a ≠ builtinWarningMsg b := by
  intro h
  have hd := congrArg (fun s => s.data.head?) h
  simp only [gvarWarningMsg, builtinWarningMsg, String.data_append] at hd
  have h1 : (("Global variable '".data ++ a.data) ++ "' was modified.".data).head? =
      some 'G' := rfl
  have h2 : (("Built-in function '".data ++ b.data) ++
      "' was modified. You should never overwrite these.".data).head? = some 'B' := rfl
  rw [h1, h2] at hd
  exact absurd hd (by decide)

/-- `envHasKey` agrees with list membership of the key list. -/
theorem envHasKey_iff_mem (e : Env) (k : String) :
    envHasKey e k = true ↔ k ∈ envKeys e := by
  simp [envHasKey, List.contains_iff_exists_mem_beq]

/-- A key present in the environment has a successful lookup. -/
theorem lookup_isSome_of_hasKey :
    (e : Env) → (k : String) → envHasKey e k = true → (e.lookup k).isSome = true
  | [], k => by simp [envHasKey, envKeys]
  | (k0, v0) :: rest, k => by
    intro h
    rw [List.lookup]
    by_cases hk : k == k0
    · simp [hk]
    · simp only [hk]
      refine lookup_isSome_of_hasKey rest k ?_
      simp only [envHasKey, envKeys, List.map_cons, List.contains_cons] at h ⊢
      rcases Bool.or_eq_true_iff.mp h with h1 | h2
      · exact absurd h1 hk
      · exact h2

/-- When no pre-existing binding was deleted, the comparison loop of
`execute_code` completes and produces exactly one "Global variable ..."
warning per pre-existing binding whose value changed, in insertion
order. -/
theorem collectGlobalVarWarnings_eq :
    (before : Env) → (after : Env) →
    (∀ p ∈ before, (after.lookup p.1).isSome = true) →
    collectGlobalVarWarnings before after =
      .ok (((before.filter (fun p => after.lookup p.1 != some p.2)).map
        (fun p => gvarWarningMsg p.1)))
  | [], _, _ => rfl
  | (k, v) :: rest, after, hkeep => by
    rw [collectGlobalVarWarnings]
    cases hl : after.lookup k with
    | none =>
      exfalso
      have := hkeep (k, v) (by simp)
      rw [hl] at this
      simp at this
    | some v2 =>
      rw [collectGlobalVarWarnings_eq rest after
        (fun q hq => hkeep q (List.mem_cons_of_mem _ hq))]
      by_cases hv : v = v2
      · subst hv
        simp [List.filter_cons, hl]
      · simp [List.filter_cons, hl, hv, Ne.symm hv]

/-- C6, counterexample.  The claim quantifies over snippets that may have
"succeeded or faulted" and promises, for every pre-existing name whose
value differs after execution, exactly one "Global variable ..." warning.
Input refuting it: environment `{"x": 1, "y": 2}` and the snippet
`del x; y = 3`.  The name `y` existed before and its value differs after,
but no warning about `y` is ever appended: the comparison loop hits the
deleted key `x` first and raises `KeyError('x')`, so `execute_code`
produces no report at all. -/
theorem c6_deleted_binding_counterexample :
    (execute_code delXSetYSnippet [("x", 1), ("y", 2)] [] [] "Error: ").toOption
      = none ∧
    execute_code delXSetYSnippet [("x", 1), ("y", 2)] [] [] "Error: " =
      .error (.keyError "x") := ⟨rfl, rfl⟩

/-- C6, amended: the per-name warning guarantees hold provided the snippet
deletes no pre-existing binding (otherwise `execute_code` raises `KeyError`
— see C3 — and appends nothing).  Under that proviso, for arbitrary
pre-existing warning/error lists and whether or not the snippet raised:
(i) every pre-existing name whose value differs after execution gets
exactly one "Global variable '<name>' was modified." warning appended;
(ii) every newly introduced name colliding with a built-in identifier gets
exactly one "Built-in function '<name>' was modified. ..." warning
appended; (iii) if execution raised no fault and no pre-existing binding
changed value, no "Global variable ..." warning is appended for any name.
(The key lists are assumed duplicate-free, as Python dict key views are.) -/
theorem c6_amended_modification_warnings
    (code : Snippet) (env : Env) (w e : List String) (pre : String)
    (hnb : (envKeys env).Nodup)
    (hna : (envKeys (code.run env).env).Nodup)
    (hkeep : ∀ k, envHasKey env k = true → envHasKey (code.run env).env k = true) :
    ∃ r, execute_code code env w e pre = .ok r ∧
      (∀ k v v2, (k, v) ∈ env → ((code.run env).env).lookup k = some v2 → v ≠ v2 →
        r.warnings.count (gvarWarningMsg k) = w.count (gvarWarningMsg k) + 1) ∧
      (∀ k, envHasKey env k = false → envHasKey (code.run env).env k = true →
        builtin_identifiers.contains k = true →
        r.warnings.count (builtinWarningMsg k) = w.count (builtinWarningMsg k) + 1) ∧
      ((code.run env).raised = none →
        (∀ k v, (k, v) ∈ env → ((code.run env).env).lookup k = some v) →
        ∀ k, r.warnings.count (gvarWarningMsg k) = w.count (gvarWarningMsg k)) := by
  have hkeep' : ∀ p ∈ env, (((code.run env).env).lookup p.1).isSome = true := by
    intro p hp
    refine lookup_isSome_of_hasKey _ _ (hkeep p.1 ?_)
    rw [envHasKey_iff_mem]
    exact List.mem_map_of_mem Prod.fst hp
  rw [execute_code]
  simp only [collectGlobalVarWarnings_eq env ((code.run env).env) hkeep']
  set after := (code.run env).env with hafter
  set changed := env.filter (fun p => after.lookup p.1 != some p.2) with hchanged
  set gws := changed.map (fun p => gvarWarningMsg p.1) with hgws
  set newNames := (envKeys after).filter (fun n => !(envKeys env).contains n)
    with hnew
  set bws := (newNames.filter (fun n => builtin_identifiers.contains n)).map
    builtinWarningMsg with hbws
  refine ⟨_, rfl, ?_, ?_, ?_⟩
  · -- (i) exactly one global-variable warning per changed pre-existing name
    intro k v v2 hmem hl hne
    have hgcount : gws.count (gvarWarningMsg k) = 1 := by
      have hmap : gws = (changed.map Prod.fst).map gvarWarningMsg := by
        rw [hgws, List.map_map]; rfl
      have hnodup : (changed.map Prod.fst).Nodup := by
        refine List.Sublist.nodup (List.Sublist.map Prod.fst ?_) hnb
        exact List.filter_sublist env
      have hcm : (k, v) ∈ changed := by
        rw [hchanged, List.mem_filter]
        refine ⟨hmem, ?_⟩
        rw [hl]
        simp only [bne_iff_ne, ne_eq, Option.some.injEq]
        exact fun hc => hne hc.symm
      have hkmem : k ∈ changed.map Prod.fst := List.mem_map_of_mem Prod.fst hcm
      rw [hmap, List.count_map_of_injective _ _ gvarWarningMsg_injective]
      exact List.count_eq_one_of_mem hnodup hkmem
    have hbcount : bws.count (gvarWarningMsg k) = 0 := by
      refine List.count_eq_zero_of_not_mem ?_
      intro hmem2
      obtain ⟨x, _, hx⟩ := List.mem_map.mp hmem2
      exact gvarWarningMsg_ne_builtinWarningMsg k x hx.symm
    rw [List.count_append, List.count_append, hgcount, hbcount]
  · -- (ii) exactly one built-in warning per colliding new name
    intro k hold hnow hbuiltin
    have hgcount : gws.count (builtinWarningMsg k) = 0 := by
      refine List.count_eq_zero_of_not_mem ?_
      intro hmem2
      rw [hgws] at hmem2
      obtain ⟨x, _, hx⟩ := List.mem_map.mp hmem2
      exact gvarWarningMsg_ne_builtinWarningMsg x.1 k hx
    have hbcount : bws.count (builtinWarningMsg k) = 1 := by
      have hnodup : (newNames.filter (fun n => builtin_identifiers.contains n)).Nodup := by
        refine List.Sublist.nodup (List.filter_sublist _) ?_
        exact List.Sublist.nodup (List.filter_sublist _) hna
      have hkmem : k ∈ newNames.filter (fun n => builtin_identifiers.contains n) := by
        rw [List.mem_filter]
        refine ⟨?_, hbuiltin⟩
        rw [hnew, List.mem_filter]
        constructor
        · exact (envHasKey_iff_mem _ _).mp hnow
        · simp only [envHasKey] at hold
          cases hcb : (envKeys env).contains k with
          | false => rfl
          | true => rw [hold] at hcb; exact absurd hcb (by decide)
      rw [hbws, List.count_map_of_injective _ _ builtinWarningMsg_injective]
      exact List.count_eq_one_of_mem hnodup hkmem
    rw [List.count_append, List.count_append, hgcount, hbcount]
  · -- (iii) no global-variable warnings when nothing pre-existing changed
    intro _ hsame k
    have hempty : changed = [] := by
      rw [hchanged, List.filter_eq_nil_iff]
      intro p hp
      rw [hsame p.1 p.2 hp]
      simp
    have hbcount : bws.count (gvarWarningMsg k) = 0 := by
      refine List.count_eq_zero_of_not_mem ?_
      intro hmem2
      obtain ⟨x, _, hx⟩ := List.mem_map.mp hmem2
      exact gvarWarningMsg_ne_builtinWarningMsg k x hx.symm
    rw [List.count_append, List.count_append, hgws, hempty]
    simp [hbcount]

/-- Witness for C6 (amended) at a concrete input: running
`modYLenSnippet` on `{"x": 1, "y": 2}` appends exactly one warning for
the modified `y` and exactly one for the shadowed built-in `len`. -/
theorem c6_amended_witness :
    execute_code modYLenSnippet [("x", 1), ("y", 2)] [] [] "Error: " =
      .ok modYLenReport ∧
    modYLenReport.warnings.count (gvarWarningMsg "y") = 1 ∧
    modYLenReport.warnings.count (builtinWarningMsg "len") = 1 := by
  obtain ⟨r, hr, h1, h2, _⟩ :=
    c6_amended_modification_warnings modYLenSnippet [("x", 1), ("y", 2)] [] []
      "Error: " (by decide) (by decide)
      (by
        intro k hk
        rw [envHasKey_iff_mem] at hk ⊢
        simp only [envKeys, modYLenSnippet, List.map_cons, List.map_nil,
          List.mem_cons, List.not_mem_nil, or_false] at hk ⊢
        rcases hk with h | h <;> simp [h])
  have hrr : modYLenReport = r := by
    rw [modYLenReport, hr]
  refine ⟨by rw [hr, hrr], ?_, ?_⟩
  · rw [hrr]
    simpa using h1 "y" 2 7 (by simp) (by decide) (by decide)
  · rw [hrr]
    simpa using h2 "len" (by decide) (by decide) (by decide)

/-! ### Requirement-validator lemmas and claims C7, C10 -/

/-- On parseable code the required-function loop appends exactly the
missing-function errors, in list order. -/
theorem collectFuncErrors_eq (sc : Snippet) (t : PyAst) (hp : sc.parsed = .ok t) :
    (rf : List String) → collectFuncErrors sc rf =
      .ok ((rf.filter (fun f => !astFound f t)).map missedFuncMsg)
  | [] => rfl
  | f :: rest => by
    rw [collectFuncErrors]
    simp only [does_code_use, hp]
    rw [collectFuncErrors_eq sc t hp rest]
    cases hb : astFound f t with
    | true => simp [List.filter_cons, hb]
    | false => simp [List.filter_cons, hb]

/-- The required-variable loop appends exactly the missing-variable
errors, in list order. -/
theorem collectVarErrors_eq :
    (rv : List String) → (env : Env) → collectVarErrors rv env =
      (rv.filter (fun v => !envHasKey env v)).map missedVarMsg
  | [], _ => rfl
  | v :: rest, env => by
    rw [collectVarErrors, collectVarErrors_eq rest env]
    cases hv : envHasKey env v with
    | true => simp [List.filter_cons, hv]
    | false => simp [List.filter_cons, hv]

/-- `execute_code` only appends to the error list it is given. -/
theorem execute_code_errors_extend (code : Snippet) (env : Env)
    (w e : List String) (pre : String) (r : ExecReport)
    (h : execute_code code env w e pre = .ok r) :
    ∃ tl, r.errors = e ++ tl := by
  simp only [execute_code] at h
  cases hc : collectGlobalVarWarnings env (code.run env).env with
  | error exc => rw [hc] at h; exact absurd h (by simp)
  | ok gws =>
    rw [hc] at h
    simp only [Except.ok.injEq] at h
    subst h
    cases hr : (code.run env).raised with
    | none => exact ⟨[], by simp [hr]⟩
    | some m => exact ⟨[pre ++ m], by simp [hr]⟩

/-- The requirement validator only appends to the error list it is
given. -/
theorem vcheck_errors_extend (sc : Snippet) (rf rv : List String) (asrt : Snippet)
    (w e : List String) (env : Env) (vr : ValidationReport)
    (h : check_student_code_against_requirements sc rf rv asrt w e env = .ok vr) :
    ∃ tl, vr.errors = e ++ tl := by
  rw [check_student_code_against_requirements] at h
  cases hf : collectFuncErrors sc rf with
  | error exc => rw [hf] at h; exact absurd h (by simp)
  | ok funcErrs =>
    rw [hf] at h
    simp only at h
    cases hx : execute_code asrt env w (e ++ funcErrs ++ collectVarErrors rv env)
        ASSERTION_FAILED_PRE with
    | error exc => rw [hx] at h; exact absurd h (by simp)
    | ok ar =>
      rw [hx] at h
      simp only [Except.ok.injEq] at h
      obtain ⟨tl, htl⟩ := execute_code_errors_extend _ _ _ _ _ _ hx
      subst h
      refine ⟨funcErrs ++ collectVarErrors rv env ++ tl, ?_⟩
      simp only [htl, List.append_assoc]

/-- Full characterization of a successful validator run on parseable
code: the recorded function-error and variable-error segments are the
filtered-and-mapped requirement lists, and the final lists come from one
`execute_code` call on the assertion snippet with the assertion prefix
against the full accumulated error list. -/
theorem vcheck_ok_characterization (sc : Snippet) (t : PyAst) (rf rv : List String)
    (asrt : Snippet) (w e : List String) (env : Env) (vr : ValidationReport)
    (hp : sc.parsed = .ok t)
    (h : check_student_code_against_requirements sc rf rv asrt w e env = .ok vr) :
    vr.funcErrors = (rf.filter (fun f => !astFound f t)).map missedFuncMsg ∧
    vr.varErrors = (rv.filter (fun v => !envHasKey env v)).map missedVarMsg ∧
    ∃ ar, execute_code asrt env w (e ++ vr.funcErrors ++ vr.varErrors)
        ASSERTION_FAILED_PRE = .ok ar ∧
      vr.errors = ar.errors ∧ vr.warnings = ar.warnings ∧ vr.env = ar.env := by
  rw [check_student_code_against_requirements,
    collectFuncErrors_eq sc t hp rf] at h
  simp only [collectVarErrors_eq] at h
  cases hx : execute_code asrt env w
      (e ++ (rf.filter (fun f => !astFound f t)).map missedFuncMsg
         ++ (rv.filter (fun v => !envHasKey env v)).map missedVarMsg)
      ASSERTION_FAILED_PRE with
  | error exc => rw [hx] at h; exact absurd h (by simp)
  | ok ar =>
    rw [hx] at h
    simp only [Except.ok.injEq] at h
    subst h
    exact ⟨rfl, rfl, ar, hx, rfl, rfl, rfl⟩

/-- Distinct names give distinct missing-function errors. -/
theorem missedFuncMsg_injective : Function.Injective missedFuncMsg := by
  intro a b h
  have hd := congrArg String.data h
  simp only [missedFuncMsg, String.data_append] at hd
  exact String.ext (List.append_cancel_left hd)

/-- Distinct names give distinct missing-variable errors. -/
theorem missedVarMsg_injective : Function.Injective missedVarMsg := by
  intro a b h
  have hd := congrArg String.data h
  simp only [missedVarMsg, String.data_append] at hd
  exact String.ext (List.append_cancel_left hd)

/-! ### Case analysis of the matched-block handler -/

/-- Exhaustive case analysis of a successful `handleTarget` run: exactly
one of the three terminal shapes holds — blocked by prior issues
(interactive only), stopped early on question-execution errors
(interactive only), or fully validated — with the branch conditions and
all record fields pinned down. -/
theorem handleTarget_cases (cells : List Cell) (i : Nat) (meta : QuestionMeta)
    (auto : Bool) (st : ScanState) (r : CheckResult)
    (h : handleTarget cells i meta auto st = .ok r) :
    ∃ ti, r.target = some ti ∧ ti.markerIndex = i ∧
      (((!st.prevWarnings.isEmpty || !st.prevErrors.isEmpty) && !auto) = true ∧
        ti.blockedByPrior = true ∧ ti.ranQuestionCode = false ∧
        ti.ranValidation = false ∧ ti.validation = none ∧ r.ret = none ∧
        r.executed = st.executed ∨
      ((!st.prevWarnings.isEmpty || !st.prevErrors.isEmpty) && !auto) = false ∧
        ∃ rep, execute_code (cells.getD (i + CODE_CELL_OFFSET_STUDENT) default).source
            st.env [] [] CUR_QUESTION_ERROR_PRE = .ok rep ∧
          ti.blockedByPrior = false ∧ ti.ranQuestionCode = true ∧
          ti.envAfterQuestion = rep.env ∧
          r.executed = st.executed ++ [i + CODE_CELL_OFFSET_STUDENT] ∧
          ((!rep.errors.isEmpty && !auto) = true ∧ ti.ranValidation = false ∧
            ti.validation = none ∧ ti.envAtValidation = none ∧ r.ret = none ∧
            ti.qWarnings = rep.warnings ∧ ti.qErrors = rep.errors ∨
          (!rep.errors.isEmpty && !auto) = false ∧
            ∃ vr, check_student_code_against_requirements
                (cells.getD (i + CODE_CELL_OFFSET_STUDENT) default).source
                meta.required_funcs meta.required_vars meta.assertions
                rep.warnings rep.errors rep.env = .ok vr ∧
              ti.ranValidation = true ∧ ti.validation = some vr ∧
              ti.envAtValidation = some rep.env ∧
              ti.qWarnings = vr.warnings ∧ ti.qErrors = vr.errors ∧
              r.ret = (if auto then
                some (vr.warnings.isEmpty && vr.errors.isEmpty) else none))) := by
  simp only [handleTarget] at h
  split at h
  next hc =>
    simp only [Except.ok.injEq] at h
    subst h
    exact ⟨_, rfl, rfl, Or.inl ⟨hc, rfl, rfl, rfl, rfl, rfl, rfl⟩⟩
  next hc =>
    have hc' : ((!st.prevWarnings.isEmpty || !st.prevErrors.isEmpty) && !auto) = false := by
      simpa using hc
    split at h
    next exc heq => exact absurd h (by simp)
    next rep heq =>
      split at h
      next hc2 =>
        simp only [Except.ok.injEq] at h
        subst h
        exact ⟨_, rfl, rfl, Or.inr ⟨hc', rep, heq, rfl, rfl, rfl, rfl,
          Or.inl ⟨hc2, rfl, rfl, rfl, rfl, rfl, rfl⟩⟩⟩
      next hc2 =>
        have hc2' : (!rep.errors.isEmpty && !auto) = false := by
          simpa using hc2
        split at h
        next exc heq2 => exact absurd h (by simp)
        next vr heq2 =>
          simp only [Except.ok.injEq] at h
          subst h
          exact ⟨_, rfl, rfl, Or.inr ⟨hc', rep, heq, rfl, rfl, rfl, rfl,
            Or.inr ⟨hc2', vr, heq2, rfl, rfl, rfl, rfl, rfl, rfl⟩⟩⟩

/-- In automated mode a successful scanning loop returns exactly the pass
boolean computed from the matched block, and a matched block is never
blocked by prior issues — its code is always executed and validated. -/
theorem checkFrom_auto (cells : List Cell) (q_id : String) (meta : QuestionMeta) :
    (idxs : List Nat) → (st : ScanState) → (r : CheckResult) →
    checkFrom cells q_id meta true idxs st = .ok r →
    r.ret = some (checkPassOf r.target) ∧
      (∀ ti, r.target = some ti →
        ti.blockedByPrior = false ∧ ti.ranQuestionCode = true ∧
        ti.ranValidation = true)
  | [], st, r => by
    intro h
    simp only [checkFrom, Except.ok.injEq] at h
    subst h
    exact ⟨rfl, by simp⟩
  | i :: rest, st, r => by
    intro h
    simp only [checkFrom] at h
    split at h
    next hfound =>
      obtain ⟨ti, hti, hmk, hcase⟩ := handleTarget_cases _ _ _ _ _ _ h
      rcases hcase with ⟨hcond, _⟩ | ⟨hcond, rep, hrep, hbp, hrq, henv, hex, hinner⟩
      · simp at hcond
      · rcases hinner with ⟨hcond2, _⟩ | ⟨hcond2, vr, hvr, hrv, hval, henvv, hqw, hqe, hret⟩
        · simp at hcond2
        · refine ⟨?_, ?_⟩
          · rw [hret, hti]
            simp [checkPassOf, hqw, hqe]
          · intro ti' hti'
            rw [hti] at hti'
            simp only [Option.some.injEq] at hti'
            subst hti'
            exact ⟨hbp, hrq, hrv⟩
    next hfound =>
      split at h
      next hcode =>
        split at h
        next exc heq => exact absurd h (by simp)
        next rep heq => exact checkFrom_auto cells q_id meta rest _ r h
      next hcode => exact checkFrom_auto cells q_id meta rest st r h

/-- In interactive mode the scanning loop never returns a value. -/
theorem checkFrom_inter_ret_none (cells : List Cell) (q_id : String)
    (meta : QuestionMeta) :
    (idxs : List Nat) → (st : ScanState) → (r : CheckResult) →
    checkFrom cells q_id meta false idxs st = .ok r → r.ret = none
  | [], st, r => by
    intro h
    simp only [checkFrom, Except.ok.injEq] at h
    subst h
    rfl
  | i :: rest, st, r => by
    intro h
    simp only [checkFrom] at h
    split at h
    next hfound =>
      obtain ⟨ti, hti, hmk, hcase⟩ := handleTarget_cases _ _ _ _ _ _ h
      rcases hcase with ⟨hcond, _, _, _, _, hret, _⟩ |
        ⟨hcond, rep, hrep, hbp, hrq, henv, hex, hinner⟩
      · exact hret
      · rcases hinner with ⟨hcond2, _, _, _, hret, _⟩ |
          ⟨hcond2, vr, hvr, hrv, hval, henvv, hqw, hqe, hret⟩
        · exact hret
        · rw [hret]; simp
    next hfound =>
      split at h
      next hcode =>
        split at h
        next exc heq => exact absurd h (by simp)
        next rep heq => exact checkFrom_inter_ret_none cells q_id meta rest _ r h
      next hcode => exact checkFrom_inter_ret_none cells q_id meta rest st r h

/-- C1, amended.  Provided the run completes without an internal
exception (the code can instead raise — see C4 — which the counterexample
below exhibits), `check` in automated mode returns exactly the boolean
`checkPassOf`: true iff a block matching the question was found and, after
its code was executed and validated, the final per-question warning and
error lists are both empty; in every other completed case — a found block
with residual warnings/errors, or no matching block at all — it returns
false.  A found block in automated mode is never blocked by prior-cell
issues and always has its code executed.  In interactive mode `check`
returns no value. -/
theorem c1_amended_return_contract :
    (∀ (cells : List Cell) (md : String → Option QuestionMeta)
        (q_id : String) (meta : QuestionMeta) (r : CheckResult),
      md q_id = some meta → check cells md q_id true = .ok r →
      r.ret = some (checkPassOf r.target) ∧
        (∀ ti, r.target = some ti →
          ti.blockedByPrior = false ∧ ti.ranQuestionCode = true)) ∧
    (∀ (cells : List Cell) (md : String → Option QuestionMeta)
        (q_id : String) (meta : QuestionMeta) (r : CheckResult),
      md q_id = some meta → check cells md q_id false = .ok r → r.ret = none) := by
  constructor
  · intro cells md q meta r hmd h
    rw [check, hmd] at h
    have hall := checkFrom_auto cells q meta _ _ r h
    exact ⟨hall.1, fun ti hti => ⟨(hall.2 ti hti).1, (hall.2 ti hti).2.1⟩⟩
  · intro cells md q meta r hmd h
    rw [check, hmd] at h
    exact checkFrom_inter_ret_none cells q meta _ _ r h

/-- Witness for C1 (amended): on the passing notebook the automated check
returns `some true` (matching `checkPassOf` of its matched block) and the
interactive check returns no value. -/
theorem c1_amended_witness :
    resGoodAuto.ret = some (checkPassOf resGoodAuto.target) ∧
    resGoodAuto.ret = some true ∧
    resGoodInter.ret = none := by
  have h1 := (c1_amended_return_contract.1 cellsGood mdGood "q1" metaGood
    resGoodAuto rfl rfl).1
  have h2 := c1_amended_return_contract.2 cellsGood mdGood "q1" metaGood
    resGoodInter rfl rfl
  exact ⟨h1, by rw [h1]; rfl, h2⟩

/-- C1, counterexample.  The claim says that with `q_id` present in the
metadata, automated `check` always returns a boolean (False in every
non-`EXECUTED_OK` case).  On `cellsBad` — whose question code has a
syntax error while the question requires the call `f` — automated
`check` returns no boolean at all: the `SyntaxError` raised by
`ast.parse` inside `_does_code_use` propagates out of `check`. -/
theorem c1_return_contract_counterexample :
    mdBad "q1" = some metaBad ∧
    (check cellsBad mdBad "q1" true).toOption = none := ⟨rfl, rfl⟩

/-- C4: student-code faults are recovered locally by `check` and never
cause it to raise.  The code violates this in automated mode: a syntax
error in the question's code is indeed caught by `execute_code`, but
automated mode then proceeds to requirement validation, whose
`_does_code_use` re-parses the student code and the `SyntaxError` from
`ast.parse` propagates out of `check` (there is no surrounding `try`).
This theorem evaluates the model at the failing input: on the
syntax-error notebook, automated `check` raises `SyntaxError` while the
same notebook in interactive mode completes normally (the interactive
early stop hides the bug). -/
theorem c4_syntax_error_escapes_check :
    check cellsBad mdBad "q1" true = .error (.syntaxError "invalid syntax") ∧
    (check cellsBad mdBad "q1" false).toOption = some resBadInter := ⟨rfl, rfl⟩

/-- C8: prior-cell warnings or errors block the check before the target
question's code only in an interactive session — in automated mode the
question's code is always executed and validated no matter what the
prior-cell lists contain — and errors from the question's own execution
prevent the success outcome in both modes (in automated mode validation
still runs, but its error list only grows, so the returned boolean can
never be true). -/
theorem c8_blocking_asymmetry :
    (∀ (cells : List Cell) (i : Nat) (meta : QuestionMeta) (st : ScanState)
        (r : CheckResult),
      handleTarget cells i meta true st = .ok r →
      ∀ ti, r.target = some ti →
        ti.blockedByPrior = false ∧ ti.ranQuestionCode = true ∧
        ti.ranValidation = true) ∧
    (∀ (cells : List Cell) (i : Nat) (meta : QuestionMeta) (st : ScanState)
        (r : CheckResult),
      (!st.prevWarnings.isEmpty || !st.prevErrors.isEmpty) = true →
      handleTarget cells i meta false st = .ok r →
      r.ret = none ∧ ∀ ti, r.target = some ti →
        ti.blockedByPrior = true ∧ ti.ranQuestionCode = false) ∧
    (∀ (cells : List Cell) (i : Nat) (meta : QuestionMeta) (auto : Bool)
        (st : ScanState) (r : CheckResult) (rep : ExecReport),
      handleTarget cells i meta auto st = .ok r →
      execute_code (cells.getD (i + CODE_CELL_OFFSET_STUDENT) default).source
        st.env [] [] CUR_QUESTION_ERROR_PRE = .ok rep →
      rep.errors ≠ [] → r.ret ≠ some true) := by
  refine ⟨?_, ?_, ?_⟩
  · intro cells i meta st r h ti hti
    obtain ⟨ti', hti', hmk, hcase⟩ := handleTarget_cases _ _ _ _ _ _ h
    rw [hti] at hti'
    simp only [Option.some.injEq] at hti'
    subst hti'
    rcases hcase with ⟨hcond, _⟩ | ⟨hcond, rep, hrep, hbp, hrq, henv, hex, hinner⟩
    · simp at hcond
    · rcases hinner with ⟨hcond2, _⟩ |
        ⟨hcond2, vr, hvr, hrv, hval, henvv, hqw, hqe, hret⟩
      · simp at hcond2
      · exact ⟨hbp, hrq, hrv⟩
  · intro cells i meta st r hw h
    obtain ⟨ti', hti', hmk, hcase⟩ := handleTarget_cases _ _ _ _ _ _ h
    rcases hcase with ⟨hcond, hbp, hrq, _, _, hret, _⟩ |
      ⟨hcond, rep, hrep, hbp, hrq, henv, hex, hinner⟩
    · refine ⟨hret, ?_⟩
      intro ti hti
      rw [hti] at hti'
      simp only [Option.some.injEq] at hti'
      subst hti'
      exact ⟨hbp, hrq⟩
    · rw [hw] at hcond
      simp at hcond
  · intro cells i meta auto st r rep h hexec hne
    obtain ⟨ti', hti', hmk, hcase⟩ := handleTarget_cases _ _ _ _ _ _ h
    rcases hcase with ⟨hcond, _, _, _, _, hret, _⟩ |
      ⟨hcond, rep', hrep, hbp, hrq, henv, hex, hinner⟩
    · rw [hret]; simp
    · have hrr : rep' = rep := by
        rw [hexec] at hrep
        simpa using hrep.symm
      subst hrr
      rcases hinner with ⟨hcond2, _, _, _, hret, _⟩ |
        ⟨hcond2, vr, hvr, hrv, hval, henvv, hqw, hqe, hret⟩
      · rw [hret]; simp
      · obtain ⟨tl, htl⟩ := vcheck_errors_extend _ _ _ _ _ _ _ _ hvr
        have hvne : vr.errors ≠ [] := by
          rw [htl]
          intro hx
          exact hne (List.append_eq_nil.mp hx).1
        have hEmpty : vr.errors.isEmpty = false := by
          cases hE : vr.errors with
          | nil => exact absurd hE hvne
          | cons a l => rfl
        rw [hret]
        cases auto with
        | false => simp
        | true => simp [hEmpty]

/-- Witness for C8: on the passing notebook with a prior-cell warning in
the state, automated handling is not blocked (its code runs, pass
returned), interactive handling is blocked; and on the runtime-error
notebook in automated mode the returned boolean is not true. -/
theorem c8_blocking_asymmetry_witness :
    tiAutoWarn.blockedByPrior = false ∧
    tiAutoWarn.ranQuestionCode = true ∧
    rTargetInterWarn.ret = none ∧
    tiInterWarn.blockedByPrior = true ∧
    rTargetErrAuto.ret ≠ some true := by
  have h1 := c8_blocking_asymmetry.1 cellsGood 0 metaGood stWarn rTargetAutoWarn rfl
    tiAutoWarn rfl
  have h2 := c8_blocking_asymmetry.2.1 cellsGood 0 metaGood stWarn rTargetInterWarn
    (by decide) rfl
  have h3 := c8_blocking_asymmetry.2.2 cellsErr 0 metaErr true stEmpty rTargetErrAuto
    repErrAuto rfl rfl (by decide)
  exact ⟨h1.1, h1.2.1, h2.1, (h2.2 tiInterWarn rfl).1, h3⟩

/-- The validator's missing-variable segment depends only on the
requirement list and the environment keys (no parse needed: the variable
loop runs after the function loop succeeded). -/
theorem vcheck_varErrors (sc : Snippet) (rf rv : List String) (asrt : Snippet)
    (w e : List String) (env : Env) (vr : ValidationReport)
    (h : check_student_code_against_requirements sc rf rv asrt w e env = .ok vr) :
    vr.varErrors = (rv.filter (fun v => !envHasKey env v)).map missedVarMsg := by
  rw [check_student_code_against_requirements] at h
  cases hf : collectFuncErrors sc rf with
  | error exc => rw [hf] at h; exact absurd h (by simp)
  | ok funcErrs =>
    rw [hf] at h
    simp only [collectVarErrors_eq] at h
    cases hx : execute_code asrt env w
        (e ++ funcErrs ++ (rv.filter (fun v => !envHasKey env v)).map missedVarMsg)
        ASSERTION_FAILED_PRE with
    | error exc => rw [hx] at h; exact absurd h (by simp)
    | ok ar =>
      rw [hx] at h
      simp only [Except.ok.injEq] at h
      subst h
      rfl

/-- C7, amended.  Provided the question's code parses (otherwise the
first required-call check raises the parse failure and the later checks
are skipped — see the counterexample), the Requirement Validator runs all
three checks with no short-circuit: the recorded missing-function errors
are exactly one per required call the code does not use, the recorded
missing-variable errors exactly one per required name absent from the
environment's keys, and the assertion snippet is always executed (with
prefix "Test case failed: ") against the accumulated error list,
regardless of earlier violations.  Moreover, in the orchestrator the
validation runs strictly after the question's own code: whenever a
matched block's record shows the validator ran, the question's code was
executed first and the validator was invoked on exactly the environment
that execution produced. -/
theorem c7_validator_runs_all_checks :
    (∀ (sc : Snippet) (t : PyAst) (rf rv : List String) (asrt : Snippet)
        (w e : List String) (env : Env) (vr : ValidationReport),
      sc.parsed = .ok t →
      check_student_code_against_requirements sc rf rv asrt w e env = .ok vr →
      vr.funcErrors = (rf.filter (fun f => !astFound f t)).map missedFuncMsg ∧
      vr.varErrors = (rv.filter (fun v => !envHasKey env v)).map missedVarMsg ∧
      ∃ ar, execute_code asrt env w (e ++ vr.funcErrors ++ vr.varErrors)
          ASSERTION_FAILED_PRE = .ok ar ∧
        vr.errors = ar.errors ∧ vr.warnings = ar.warnings ∧ vr.env = ar.env) ∧
    (∀ (cells : List Cell) (i : Nat) (meta : QuestionMeta) (auto : Bool)
        (st : ScanState) (r : CheckResult) (ti : TargetInfo),
      handleTarget cells i meta auto st = .ok r →
      r.target = some ti → ti.ranValidation = true →
      ti.ranQuestionCode = true ∧ ti.envAtValidation = some ti.envAfterQuestion ∧
      ∃ rep vr,
        execute_code (cells.getD (i + CODE_CELL_OFFSET_STUDENT) default).source
          st.env [] [] CUR_QUESTION_ERROR_PRE = .ok rep ∧
        ti.envAfterQuestion = rep.env ∧ ti.validation = some vr ∧
        check_student_code_against_requirements
          (cells.getD (i + CODE_CELL_OFFSET_STUDENT) default).source
          meta.required_funcs meta.required_vars meta.assertions
          rep.warnings rep.errors rep.env = .ok vr) := by
  constructor
  · intro sc t rf rv asrt w e env vr hp h
    exact vcheck_ok_characterization sc t rf rv asrt w e env vr hp h
  · intro cells i meta auto st r ti h hti hv
    obtain ⟨ti', hti', hmk, hcase⟩ := handleTarget_cases _ _ _ _ _ _ h
    rw [hti] at hti'
    simp only [Option.some.injEq] at hti'
    subst hti'
    rcases hcase with ⟨hcond, _, _, hrv, _⟩ |
      ⟨hcond, rep, hrep, hbp, hrq, henv, hex, hinner⟩
    · rw [hrv] at hv; exact absurd hv (by simp)
    · rcases hinner with ⟨hcond2, hrv, _⟩ |
        ⟨hcond2, vr, hvr, hrv, hval, henvv, hqw, hqe, hret⟩
      · rw [hrv] at hv; exact absurd hv (by simp)
      · exact ⟨hrq, by rw [henvv, henv], rep, vr, hrep, henv, hval, hvr⟩

/-- Witness for C7 (amended): a concrete validator run — code
`x = abs(-5)`, required calls `abs` (used) and `len` (unused), required
variables `x` (bound) and `zz` (unbound) — records exactly one
missing-function error (for `len`) and exactly one missing-variable
error (for `zz`). -/
theorem c7_validator_witness :
    vrSample.funcErrors = [missedFuncMsg "len"] ∧
    vrSample.varErrors = [missedVarMsg "zz"] := by
  have h := c7_validator_runs_all_checks.1 snippetAbs tAbs ["abs", "len"]
    ["x", "zz"] noopSnippet [] [] [("x", 5)] vrSample rfl rfl
  exact ⟨by rw [h.1]; rfl, by rw [h.2.1]; rfl⟩

/-- C7, counterexample.  The claim says the three checks run
unconditionally, with the assertion snippet always executed.  With
unparseable question code and a nonempty required-call list the validator
instead raises on the very first required-call check: no missing-variable
error is recorded for the absent `zz` and the assertion snippet is never
executed (the call produces no report at all). -/
theorem c7_unparseable_short_circuit_counterexample :
    check_student_code_against_requirements snippetSyntaxErr ["f"] ["zz"]
      noopSnippet [] [] [] = .error (.syntaxError "invalid syntax") := rfl

/-- C10: a required variable is counted as defined iff it is a key of the
accumulated environment at validation time — so a binding created by an
earlier cell satisfies the requirement even if the question's own code
never assigns it — whereas a required call is satisfied only by a
call/operator found in the question cell's own parsed source, never by
usage in earlier cells. -/
theorem c10_required_vars_from_env_calls_from_cell :
    (∀ (sc : Snippet) (t : PyAst) (rf rv : List String) (asrt : Snippet)
        (w e : List String) (env : Env) (vr : ValidationReport) (v : String),
      sc.parsed = .ok t →
      check_student_code_against_requirements sc rf rv asrt w e env = .ok vr →
      (missedVarMsg v ∈ vr.varErrors ↔ v ∈ rv ∧ envHasKey env v = false)) ∧
    (∀ (sc : Snippet) (t : PyAst) (rf rv : List String) (asrt : Snippet)
        (w e : List String) (env : Env) (vr : ValidationReport) (f : String),
      sc.parsed = .ok t →
      check_student_code_against_requirements sc rf rv asrt w e env = .ok vr →
      (missedFuncMsg f ∈ vr.funcErrors ↔ f ∈ rf ∧ astFound f t = false)) ∧
    (∀ (cells : List Cell) (i : Nat) (meta : QuestionMeta) (auto : Bool)
        (st : ScanState) (r : CheckResult) (ti : TargetInfo)
        (vr : ValidationReport),
      handleTarget cells i meta auto st = .ok r →
      r.target = some ti → ti.validation = some vr →
      vr.varErrors = (meta.required_vars.filter
        (fun v => !envHasKey ti.envAfterQuestion v)).map missedVarMsg ∧
      (∀ t, (cells.getD (i + CODE_CELL_OFFSET_STUDENT) default).source.parsed
          = .ok t →
        vr.funcErrors = (meta.required_funcs.filter
          (fun f => !astFound f t)).map missedFuncMsg) ∧
      (∀ v, v ∈ meta.required_vars → envHasKey ti.envAfterQuestion v = true →
        missedVarMsg v ∉ vr.varErrors)) := by
  have hvarMem : ∀ (rv : List String) (env : Env) (v : String),
      (missedVarMsg v ∈ (rv.filter (fun u => !envHasKey env u)).map missedVarMsg ↔
        v ∈ rv ∧ envHasKey env v = false) := by
    intro rv env v
    constructor
    · intro hm
      obtain ⟨u, hu, he⟩ := List.mem_map.mp hm
      have hu' : u = v := missedVarMsg_injective he
      subst hu'
      have hf := List.mem_filter.mp hu
      exact ⟨hf.1, by simpa using hf.2⟩
    · intro hv
      refine List.mem_map.mpr ⟨v, List.mem_filter.mpr ⟨hv.1, by simp [hv.2]⟩, rfl⟩
  refine ⟨?_, ?_, ?_⟩
  · intro sc t rf rv asrt w e env vr v hp h
    rw [vcheck_varErrors sc rf rv asrt w e env vr h]
    exact hvarMem rv env v
  · intro sc t rf rv asrt w e env vr f hp h
    rw [(vcheck_ok_characterization sc t rf rv asrt w e env vr hp h).1]
    constructor
    · intro hm
      obtain ⟨u, hu, he⟩ := List.mem_map.mp hm
      have hu' : u = f := missedFuncMsg_injective he
      subst hu'
      have hf := List.mem_filter.mp hu
      exact ⟨hf.1, by simpa using hf.2⟩
    · intro hf
      refine List.mem_map.mpr ⟨f, List.mem_filter.mpr ⟨hf.1, by simp [hf.2]⟩, rfl⟩
  · intro cells i meta auto st r ti vr h hti hval
    obtain ⟨ti', hti', hmk, hcase⟩ := handleTarget_cases _ _ _ _ _ _ h
    rw [hti] at hti'
    simp only [Option.some.injEq] at hti'
    subst hti'
    rcases hcase with ⟨hcond, _, _, _, hvn, _⟩ |
      ⟨hcond, rep, hrep, hbp, hrq, henv, hex, hinner⟩
    · rw [hvn] at hval; exact absurd hval (by simp)
    · rcases hinner with ⟨hcond2, _, hvn, _⟩ |
        ⟨hcond2, vr', hvr, hrv, hval', henvv, hqw, hqe, hret⟩
      · rw [hvn] at hval; exact absurd hval (by simp)
      · rw [hval'] at hval
        simp only [Option.some.injEq] at hval
        subst hval
        have hvars := vcheck_varErrors _ _ _ _ _ _ _ _ hvr
        rw [← henv] at hvars
        refine ⟨hvars, ?_, ?_⟩
        · intro t hp
          exact (vcheck_ok_characterization _ t _ _ _ _ _ _ _ hp hvr).1
        · intro v hvmem hvkey
          rw [hvars]
          intro hm
          have := (hvarMem meta.required_vars ti.envAfterQuestion v).mp hm
          rw [hvkey] at this
          exact absurd this.2 (by simp)

/-- Witness for C10: in the concrete validator run `vrSample` (code
`x = abs(-5)`, env `{"x": 5}`), the unbound `zz` is reported missing, the
env-bound `x` is not, the unused `len` is reported missing, and the used
`abs` is not. -/
theorem c10_witness :
    missedVarMsg "zz" ∈ vrSample.varErrors ∧
    missedVarMsg "x" ∉ vrSample.varErrors ∧
    missedFuncMsg "len" ∈ vrSample.funcErrors ∧
    missedFuncMsg "abs" ∉ vrSample.funcErrors := by
  have h1 := c10_required_vars_from_env_calls_from_cell.1 snippetAbs tAbs
    ["abs", "len"] ["x", "zz"] noopSnippet [] [] [("x", 5)] vrSample "zz" rfl rfl
  have h2 := c10_required_vars_from_env_calls_from_cell.1 snippetAbs tAbs
    ["abs", "len"] ["x", "zz"] noopSnippet [] [] [("x", 5)] vrSample "x" rfl rfl
  have h3 := c10_required_vars_from_env_calls_from_cell.2.1 snippetAbs tAbs
    ["abs", "len"] ["x", "zz"] noopSnippet [] [] [("x", 5)] vrSample "len" rfl rfl
  have h4 := c10_required_vars_from_env_calls_from_cell.2.1 snippetAbs tAbs
    ["abs", "len"] ["x", "zz"] noopSnippet [] [] [("x", 5)] vrSample "abs" rfl rfl
  refine ⟨h1.mpr ⟨by decide, by decide⟩, ?_, h3.mpr ⟨by decide, by decide⟩, ?_⟩
  · intro hm
    exact absurd (h2.mp hm).2 (by decide)
  · intro hm
    exact absurd (h4.mp hm).2 (by decide)

/-- Scanning-loop bounds: over a strictly increasing index list, a
matched block's marker index comes from the list, every executed cell is
either a previously executed one, a prior cell strictly before the
marker, or the question cell at marker-offset+1; with no match, only
scanned indices are executed. -/
theorem checkFrom_scan (cells : List Cell) (q_id : String) (meta : QuestionMeta)
    (auto : Bool) :
    (idxs : List Nat) → (st : ScanState) → (r : CheckResult) →
    checkFrom cells q_id meta auto idxs st = .ok r →
    idxs.Pairwise (· < ·) →
    (∀ ti, r.target = some ti →
      ti.markerIndex ∈ idxs ∧
      ((∀ j ∈ st.executed, j < ti.markerIndex) →
        ∀ j ∈ r.executed,
          j < ti.markerIndex ∨ j = ti.markerIndex + CODE_CELL_OFFSET_STUDENT)) ∧
    (r.target = none → ∀ j ∈ r.executed, j ∈ st.executed ∨ j ∈ idxs)
  | [], st, r => by
    intro h hp
    simp only [checkFrom, Except.ok.injEq] at h
    subst h
    refine ⟨by simp, ?_⟩
    intro _ j hj
    exact Or.inl hj
  | i :: rest, st, r => by
    intro h hp
    simp only [checkFrom] at h
    split at h
    next hfound =>
      obtain ⟨ti', hti', hmk, hcase⟩ := handleTarget_cases _ _ _ _ _ _ h
      have hexec : r.executed = st.executed ∨
          r.executed = st.executed ++ [i + CODE_CELL_OFFSET_STUDENT] := by
        rcases hcase with ⟨_, _, _, _, _, _, hex⟩ | ⟨_, rep, _, _, _, _, hex, _⟩
        · exact Or.inl hex
        · exact Or.inr hex
      refine ⟨?_, ?_⟩
      · intro ti hti
        rw [hti] at hti'
        simp only [Option.some.injEq] at hti'
        subst hti'
        refine ⟨by rw [hmk]; exact List.mem_cons_self i rest, ?_⟩
        intro hst j hj
        rcases hexec with he | he
        · rw [he] at hj
          exact Or.inl (hst j hj)
        · rw [he] at hj
          rcases List.mem_append.mp hj with hj1 | hj2
          · exact Or.inl (hst j hj1)
          · rw [hmk]
            simp only [List.mem_singleton] at hj2
            exact Or.inr hj2
      · intro hnone
        rw [hnone] at hti'
        exact absurd hti' (by simp)
    next hfound =>
      split at h
      next hcode =>
        split at h
        next exc heq => exact absurd h (by simp)
        next rep heq =>
          have hlt : ∀ b ∈ rest, i < b := (List.pairwise_cons.mp hp).1
          have ih := checkFrom_scan cells q_id meta auto rest _ r h hp.of_cons
          refine ⟨?_, ?_⟩
          · intro ti hti
            obtain ⟨hmem, himp⟩ := ih.1 ti hti
            refine ⟨List.mem_cons_of_mem i hmem, ?_⟩
            intro hst
            refine himp ?_
            intro j hj
            rcases List.mem_append.mp hj with hj1 | hj2
            · exact hst j hj1
            · simp only [List.mem_singleton] at hj2
              subst hj2
              exact hlt ti.markerIndex hmem
          · intro hnone j hj
            rcases ih.2 hnone j hj with hj1 | hj2
            · rcases List.mem_append.mp hj1 with ha | hb
              · exact Or.inl ha
              · simp only [List.mem_singleton] at hb
                subst hb
                exact Or.inr (List.mem_cons_self _ _)
            · exact Or.inr (List.mem_cons_of_mem i hj2)
      next hcode =>
        have ih := checkFrom_scan cells q_id meta auto rest st r h hp.of_cons
        refine ⟨?_, ?_⟩
        · intro ti hti
          obtain ⟨hmem, himp⟩ := ih.1 ti hti
          exact ⟨List.mem_cons_of_mem i hmem, himp⟩
        · intro hnone j hj
          rcases ih.2 hnone j hj with h1 | h2
          · exact Or.inl h1
          · exact Or.inr (List.mem_cons_of_mem i h2)

/-- C9: once the block matching the requested question has been found and
handled, `check` executes no later cell: every executed cell is either a
prior cell (index strictly below the marker) or the matched block's own
question-code cell at marker-offset+1; and marker candidates are only
ever drawn from outside the fixed trailing window — the matched marker
satisfies `markerIndex + CHECK_CELL_OFFSET_STUDENT < cells.length`, and
when no block matches, only cells outside that window are executed. -/
theorem c9_stops_at_matched_block :
    ∀ (cells : List Cell) (md : String → Option QuestionMeta) (q_id : String)
      (meta : QuestionMeta) (auto : Bool) (r : CheckResult),
    md q_id = some meta → check cells md q_id auto = .ok r →
    (∀ ti, r.target = some ti →
      ti.markerIndex + CHECK_CELL_OFFSET_STUDENT < cells.length ∧
      ∀ j ∈ r.executed,
        j < ti.markerIndex ∨ j = ti.markerIndex + CODE_CELL_OFFSET_STUDENT) ∧
    (r.target = none →
      ∀ j ∈ r.executed, j + CHECK_CELL_OFFSET_STUDENT < cells.length) := by
  intro cells md q meta auto r hmd h
  rw [check, hmd] at h
  have hs := checkFrom_scan cells q meta auto _ _ r h (List.pairwise_lt_range _)
  constructor
  · intro ti hti
    obtain ⟨hmem, himp⟩ := hs.1 ti hti
    have hmi := List.mem_range.mp hmem
    have hc2 : CHECK_CELL_OFFSET_STUDENT = 2 := rfl
    refine ⟨by rw [hc2] at hmi ⊢; omega, himp (by simp)⟩
  · intro hnone j hj
    rcases hs.2 hnone j hj with h1 | h2
    · simp at h1
    · have hji := List.mem_range.mp h2
      have hc2 : CHECK_CELL_OFFSET_STUDENT = 2 := rfl
      rw [hc2] at hji ⊢
      omega

/-- Witness for C9: in the automated run on the passing notebook the
matched marker is outside the trailing window and the executed cell 1 is
the matched block's question-code cell. -/
theorem c9_witness :
    tiGoodAuto.markerIndex + CHECK_CELL_OFFSET_STUDENT < cellsGood.length ∧
    (1 < tiGoodAuto.markerIndex ∨
      1 = tiGoodAuto.markerIndex + CODE_CELL_OFFSET_STUDENT) := by
  have h := (c9_stops_at_matched_block cellsGood mdGood "q1" metaGood true
    resGoodAuto rfl rfl).1 tiGoodAuto rfl
  exact ⟨h.1, h.2 1 (by decide)⟩

end StudentGrader
